import Mathlib

/-!
Verification of the generate-validate-repair controller of the kql toolkit.

The definitions below are a shallow embedding of the Go sources:
  * `pkg/ai` retry controller (`GenerateWithValidation`, `buildRetryPrompt`,
    `getErrorHints`, `getErrorExamples`, `parseErrorToValidationError`) and its
    configuration types (`ValidationConfig`, `FeedbackConfig`, `TempAdjustConfig`),
  * `cmd/generate.go` response extraction (`extractKQL`, `looksLikeKQLStart`,
    `looksLikeExplanation`, `stripInlineBackticks`).

Modelling conventions:
  * Go `int` is modelled as `Int` (idealised, no 64-bit wrap: attempt counters
    and retry budgets stay far from the word size in every reachable run).
  * Go `float32` temperatures are modelled as exact rationals `Rat`; the
    controller only adds, multiplies and compares them.
  * The external parser `kqlparser.Parse` (a separate module, not part of this
    repository) is modelled as a parameter `parse : String -> List String`
    returning the `Error()` strings of its diagnostics.
  * The provider (`Provider.Complete`) is modelled as a function from the
    attempt index and the prompt to `Except String String`; the attempt index
    stands for the internal state a stub may carry across sequential calls.
    Note the Go interface takes only `(ctx, prompt)`: no temperature argument
    exists at that boundary, which the embedding reproduces.
  * The `verbose`/`debug` sinks are purely observational in the source (never
    read back); the embedding drops them and instead returns the trace of
    prompts passed to the provider, which the sinks cannot influence.
-/

namespace KQL

/-- The backtick character (Go literal `` ` `` in `stripInlineBackticks`). -/
def btick : Char := Char.ofNat 96

/-- Go `unicode.IsSpace` restricted to the ASCII whitespace the toolkit meets. -/
def goIsSpace (c : Char) : Bool :=
  c = ' ' || c = '\t' || c = '\n' || c = '\r' || c = Char.ofNat 11 || c = Char.ofNat 12

/-- Go `strings.TrimSpace`. -/
def goTrimSpace (s : String) : String :=
  ⟨((s.data.dropWhile goIsSpace).reverse.dropWhile goIsSpace).reverse⟩

/-- Go `strings.ToLower` (the diagnostics matched are ASCII). -/
def goToLower (s : String) : String := ⟨s.data.map Char.toLower⟩

/-- First index of `pat` in `l`, Go `strings.Index` (`none` for Go's `-1`). -/
def idxOf : List Char → List Char → Option Nat
  | l, pat =>
    if pat.isPrefixOf l then some 0
    else
      match l with
      | [] => none
      | _ :: t => (idxOf t pat).map (· + 1)

/-- Go `strings.Contains s sub`. -/
def strContains (s sub : String) : Bool := (idxOf s.data sub.data).isSome

/-! ## Data model (`pkg/ai`, part_003 lines 17-49 and provider.go lines 143-185) -/

/-- `ValidationError` (part_003 lines 33-37): one positioned diagnostic. -/
structure ValidationError where
  Line : Int
  Column : Int
  Message : String
deriving DecidableEq, Repr

/-- `GenerateResult` (part_003 lines 18-30). -/
structure GenerateResult where
  Query : String
  Valid : Bool
  Errors : List ValidationError
  Attempts : Int
deriving DecidableEq, Repr

/-- `GenerateRequest` (part_003 lines 40-49). -/
structure GenerateRequest where
  Prompt : String
  Table : String
  Schema : String
deriving DecidableEq, Repr

/-- `FeedbackConfig` (provider.go lines 161-173). -/
structure FeedbackConfig where
  Errors : Bool
  Hints : Bool
  Examples : Bool
  Progressive : Bool
deriving DecidableEq, Repr

/-- `TempAdjustConfig` (provider.go lines 176-184): float32 fields as `Rat`. -/
structure TempAdjustConfig where
  Adjust : Bool
  Increment : Rat
  Max : Rat
deriving DecidableEq, Repr

/-- `ValidationConfig` (provider.go lines 143-157). -/
structure ValidationConfig where
  Enabled : Bool
  Strict : Bool
  Retries : Int
  Feedback : FeedbackConfig
  Temp : TempAdjustConfig
deriving DecidableEq, Repr

/-- The temperature the controller computes for one attempt
(part_003 lines 91-97: `temp := baseTemp; if attempt > 1 && cfg.Temp.Adjust
{ temp = baseTemp + float32(attempt-1)*Increment; if temp > Max { temp = Max } }`). -/
def tempForAttempt (baseTemp : Rat) (attempt : Int) (tc : TempAdjustConfig) : Rat :=
  if 1 < attempt ∧ tc.Adjust = true then
    let t := baseTemp + (attempt - 1 : Int) * tc.Increment
    if tc.Max < t then tc.Max else t
  else baseTemp

/-! ## `parseErrorToValidationError` (part_003 lines 360-383)

The source matches the diagnostic text against the anchored regular expression
`^[^:]+:(\d+):(\d+): (.+)$` (Go `regexp`, RE2 semantics: `[^:]` also matches a
newline, `\d` is `[0-9]`, `.` does not match a newline, and without the `m`
flag `^`/`$` anchor at the very start/end of the text).  Because `[^:]+` cannot
cross a colon and each `\d+` must be followed immediately by `:`, the match is
deterministic: the source name is everything up to the first colon, each number
is the maximal digit run after it, then `: ` and the (newline-free, non-empty)
message.  `parseShape` is that deterministic reading. -/

/-- Value of a digit string, most significant first. -/
def digitsToNat (l : List Char) : Nat := l.foldl (fun a c => a * 10 + (c.toNat - 48)) 0

/-- Go `strconv.Atoi` on an all-digit string: the parsed value, saturated at
`2^63 - 1` (on range error Go returns the clamped value and the controller
ignores the error). -/
def goAtoi (l : List Char) : Int := min (digitsToNat l : Int) (2 ^ 63 - 1)

/-- The regex's `[^:]` character class. -/
def notColon (c : Char) : Bool := c ≠ ':'

/-- Deterministic reading of the anchored regex `^[^:]+:(\d+):(\d+): (.+)$`:
returns the captured (source, line digits, column digits, message).  Each
quantified sub-pattern is a greedy `takeWhile` (no shorter match can succeed,
because the character forced to follow each run belongs to the run's class). -/
def parseShape (l : List Char) : Option (List Char × List Char × List Char × List Char) :=
  let src := l.takeWhile notColon
  if src = [] then none
  else
    match l.dropWhile notColon with
    | [] => none
    | c₀ :: r₁ =>
      if c₀ = ':' then
        let ld := r₁.takeWhile Char.isDigit
        if ld = [] then none
        else
          match r₁.dropWhile Char.isDigit with
          | [] => none
          | c₂ :: r₃ =>
            if c₂ = ':' then
              let cd := r₃.takeWhile Char.isDigit
              if cd = [] then none
              else
                match r₃.dropWhile Char.isDigit with
                | [] => none
                | c₄ :: r₅ =>
                  if c₄ = ':' then
                    if r₅.head? = some ' ' then
                      let m := r₅.tail
                      if m ≠ [] ∧ ¬ m.contains '\n' then some (src, ld, cd, m) else none
                    else none
                  else none
            else none
      else none

/-- `parseErrorToValidationError` (part_003 lines 362-383): shape-matching
diagnostics keep their position and message, everything else falls back to
line 1, column 1 with the whole text as message. -/
def parseErrorToValidationError (msg : String) : ValidationError :=
  match parseShape msg.data with
  | some (_, ld, cd, m) => ⟨goAtoi ld, goAtoi cd, ⟨m⟩⟩
  | none => ⟨1, 1, msg⟩

/-! ## Error classifier (`getErrorHints`, `getErrorExamples`, part_003 lines 224-338)

The Go functions accumulate a `map[string]bool` while looping over the
diagnostics and then list the keys, so the emitted ORDER is unspecified (Go map
iteration); the SET of strings is what is well defined.  The embedding keeps
the source's rule-table order and produces each triggered text exactly once,
which realises the same set.  The claims below use membership only. -/

/-- The rule table of `getErrorHints`: a keyword test over the lower-cased
diagnostic message, and the hint it adds (part_003 lines 228-277, in source
order). -/
def hintRows : List ((String → Bool) × String) :=
  [ (fun m => strContains m "expected ')'" || strContains m "expected '('" ||
        strContains m "unclosed" || strContains m "unmatched",
     "Ensure all parentheses are balanced"),
    (fun m => strContains m "expected '|'" || strContains m "pipe",
     "Each operator should be on a new line starting with |"),
    (fun m => strContains m "expected ','",
     "Multiple arguments should be separated by commas"),
    (fun m => strContains m "expected operator" || strContains m "unknown operator",
     "Common operators: where, project, summarize, extend, join, take, top, sort"),
    (fun m => strContains m "by",
     "The 'by' clause is used with summarize, top, and order operators"),
    (fun m => strContains m "string" || strContains m "quote",
     "Use single or double quotes for string literals"),
    (fun m => strContains m "triple delimiter" || strContains m "multi-line string" ||
        strContains m "illegal",
     "Do NOT wrap output in backticks - output raw KQL only"),
    (fun m => strContains m "datetime" || strContains m "date",
     "Use datetime() for date values, e.g., datetime(2024-01-01)"),
    (fun m => strContains m "timespan" || strContains m "ago",
     "Use timespan literals like 1h, 7d, 30m or the ago() function") ]

/-- `getErrorHints` (part_003 lines 225-284): the set of hints triggered by
some diagnostic, emitted once each (see the order note above). -/
def getErrorHints (errors : List ValidationError) : List String :=
  hintRows.filterMap fun row =>
    if errors.any (fun e => row.1 (goToLower e.Message)) then some row.2 else none

/-- The multi-line structural example added by `getErrorExamples` when
`progressive` and `attempt >= 3` (part_003 line 329). -/
def progressiveExample : String :=
  "// Multi-line query structure:\nTable\n| where Condition\n| summarize count() by Column"

/-- `getErrorExamples` (part_003 lines 287-338).  Note the progressive addition
sits INSIDE the `for _, e := range errors` loop, so it fires only when at least
one diagnostic exists.  Each keyword rule contributes its example once when
some diagnostic triggers it (the Go code collects a map and lists its keys in
unspecified order; this embedding fixes the source's rule order). -/
def getErrorExamples (errors : List ValidationError) (attempt : Int) (progressive : Bool) :
    List String :=
  let fires := fun p : String → Bool => errors.any (fun e => p (goToLower e.Message))
  (if fires (fun m => strContains m "summarize" || strContains m "count" ||
       strContains m "sum" || strContains m "avg")
   then ["T | summarize count() by Column"] else [])
  ++ (if fires (fun m => strContains m "summarize" || strContains m "count" ||
        strContains m "sum" || strContains m "avg")
      then ["T | summarize Total=sum(Value) by Category"] else [])
  ++ (if fires (fun m => strContains m "where" || strContains m "filter")
      then ["T | where Column > 10"] else [])
  ++ (if fires (fun m => strContains m "where" || strContains m "filter")
      then ["T | where Name == 'value'"] else [])
  ++ (if fires (fun m => strContains m "project") then ["T | project Column1, Column2"] else [])
  ++ (if fires (fun m => strContains m "project") then ["T | project NewName = OldName"] else [])
  ++ (if fires (fun m => strContains m "join")
      then ["T1 | join kind=inner T2 on CommonColumn"] else [])
  ++ (if fires (fun m => strContains m "extend") then ["T | extend NewColumn = Expression"] else [])
  ++ (if fires (fun m => strContains m "expected ')'" || strContains m "expected '('")
      then ["Function calls: func(arg1, arg2)"] else [])
  ++ (if fires (fun _ => progressive && decide (3 ≤ attempt)) then [progressiveExample] else [])

/-- The emphasis sentence `buildRetryPrompt` appends when `progressive` and
`attempt >= 3` (part_003 line 216). -/
def progressiveEmphasis : String :=
  "IMPORTANT: Please carefully check all parentheses, pipes, and operator syntax.\n\n"

/-- The `feedback.Errors` block of `buildRetryPrompt` (part_003 lines
182-188). -/
def retryErrorsSection (errors : List ValidationError) (feedback : FeedbackConfig) : String :=
  if feedback.Errors then
    "Errors:\n" ++ String.join (errors.map (fun e =>
      "- Line " ++ toString e.Line ++ ", Column " ++ toString e.Column ++ ": "
        ++ e.Message ++ "\n")) ++ "\n"
  else ""

/-- The `feedback.Hints` block of `buildRetryPrompt` (part_003 lines
191-200). -/
def retryHintsSection (errors : List ValidationError) (feedback : FeedbackConfig) : String :=
  if feedback.Hints then
    let hints := getErrorHints errors
    if hints.isEmpty then ""
    else "Hints:\n" ++ String.join (hints.map (fun h => "- " ++ h ++ "\n")) ++ "\n"
  else ""

/-- The `feedback.Examples` block of `buildRetryPrompt` (part_003 lines
203-212). -/
def retryExamplesSection (errors : List ValidationError) (attempt : Int)
    (feedback : FeedbackConfig) : String :=
  if feedback.Examples then
    let exs := getErrorExamples errors attempt feedback.Progressive
    if exs.isEmpty then ""
    else "Correct syntax examples:\n" ++ String.join (exs.map (fun ex => ex ++ "\n")) ++ "\n"
  else ""

/-- The progressive emphasis of `buildRetryPrompt` (part_003 lines 215-217). -/
def retryEmphasisSection (attempt : Int) (feedback : FeedbackConfig) : String :=
  if feedback.Progressive = true ∧ 3 ≤ attempt then progressiveEmphasis else ""

/-- `buildRetryPrompt` (part_003 lines 164-222): original prompt, the failed
candidate in a fenced block, then the errors / hints / examples / emphasis
sections gated by `FeedbackConfig` (in the source's write order), then the
fixed closing instruction. -/
def buildRetryPrompt (req : GenerateRequest) (failedKQL : String)
    (errors : List ValidationError) (attempt : Int) (feedback : FeedbackConfig)
    (buildPrompt : GenerateRequest → String) : String :=
  buildPrompt req
  ++ "\n\n---\n\n"
  ++ "Your previous attempt had syntax errors:\n\n```kql\n"
  ++ failedKQL
  ++ "\n```\n\n"
  ++ retryErrorsSection errors feedback
  ++ retryHintsSection errors feedback
  ++ retryExamplesSection errors attempt feedback
  ++ retryEmphasisSection attempt feedback
  ++ "Please fix these errors and provide a corrected query."

/-! ## Response extraction (`cmd/generate.go` lines 317-438) -/

/-- Go `strings.HasPrefix s p`. -/
def strStartsWith (s p : String) : Bool := p.data.isPrefixOf s.data

/-- Go `strings.Split s "\n"` on the character list (never returns `[]`). -/
def splitNL : List Char → List (List Char)
  | [] => [[]]
  | c :: rest =>
    if c = '\n' then [] :: splitNL rest
    else
      match splitNL rest with
      | h :: t => (c :: h) :: t
      | [] => [[c]]

/-- Go `strings.Split s "\n"`. -/
def splitLines (s : String) : List String := (splitNL s.data).map (fun l => ⟨l⟩)

/-- `stripInlineBackticks` (generate.go lines 425-438): trim, drop one
surrounding backtick pair, then one lone leading and one lone trailing
backtick, trim again. -/
def stripInlineBackticks (s0 : String) : String :=
  let s := goTrimSpace s0
  let l := s.data
  let l := if 2 ≤ l.length ∧ l.head? = some btick ∧ l.getLast? = some btick
           then (l.drop 1).dropLast else l
  let l := if l.head? = some btick then l.drop 1 else l
  let l := if l.getLast? = some btick then l.dropLast else l
  goTrimSpace ⟨l⟩

/-- `looksLikeKQLStart` (generate.go lines 380-403): `let `/comment prefix, or
a first character that is an ASCII letter. -/
def looksLikeKQLStart (line : String) : Bool :=
  let lower := goToLower line
  if strStartsWith lower "let " || strStartsWith lower "//" || strStartsWith lower "/*" then
    true
  else
    match line.data with
    | c :: _ => decide (('A' ≤ c ∧ c ≤ 'Z') ∨ ('a' ≤ c ∧ c ≤ 'z'))
    | [] => false

/-- The fixed sentence starters of `looksLikeExplanation` (generate.go 405-423). -/
def explanationStarters : List String :=
  ["this query", "the query", "this will", "explanation:", "note:", "here's", "here is",
   "the above"]

/-- `looksLikeExplanation` (generate.go lines 405-423). -/
def looksLikeExplanation (line : String) : Bool :=
  let lower := goToLower line
  explanationStarters.any (fun e => strStartsWith lower e)

/-- The line scan of `extractKQL` (generate.go lines 343-371): skip leading
blanks, open the capture window at the first KQL-looking line, stop (`break`)
at the first explanatory line. -/
def scanLines : List String → Bool → List String
  | [], _ => []
  | line :: rest, inQuery =>
    let trimmed := goTrimSpace line
    if inQuery = false ∧ trimmed = "" then scanLines rest inQuery
    else
      let inQ := inQuery || looksLikeKQLStart trimmed
      if inQ then
        if looksLikeExplanation trimmed then []
        else line :: scanLines rest true
      else scanLines rest false

/-- One fenced-block try of `extractKQL` (generate.go lines 324-336): first
occurrence of the fence opener `lang`, then the next closing fence; a missing
closer or an all-blank interior makes the Go loop continue (`none` here). -/
def tryFence (resp : List Char) (lang : List Char) : Option String :=
  match idxOf resp lang with
  | none => none
  | some idx =>
    let tail := resp.drop (idx + lang.length)
    match idxOf tail ("```".data) with
    | none => none
    | some e =>
      let extracted := goTrimSpace ⟨tail.take e⟩
      if extracted = "" then none else some (stripInlineBackticks extracted)

/-- `extractKQL` (generate.go lines 319-378): trim; try the ```` ```kql ````,
```` ```kusto ````, ```` ``` ```` fences in order; otherwise strip inline
backticks and scan lines, falling back to the processed text when no line was
captured. -/
def extractKQL (resp0 : String) : String :=
  let response := goTrimSpace resp0
  let fenced : Option String :=
    if strContains response "```" then
      match tryFence response.data ("```kql".data) with
      | some r => some r
      | none =>
        match tryFence response.data ("```kusto".data) with
        | some r => some r
        | none => tryFence response.data ("```".data)
    else none
  match fenced with
  | some r => r
  | none =>
    let response := stripInlineBackticks response
    let kqlLines := scanLines (splitLines response) false
    if kqlLines.isEmpty then response
    else goTrimSpace (String.intercalate "\n" kqlLines)

/-! ## The retry controller (`GenerateWithValidation`, part_003 lines 52-161)

The embedding returns the list of prompts passed to `provider.Complete` (in
call order) next to the Go return value.  `provider` maps the attempt index
and the prompt to the completion or a transport error; `parse` stands for the
external `kqlparser.Parse` and yields the `Error()` strings of the
diagnostics of a candidate.  The loop `for attempt := 1; attempt <=
maxAttempts; attempt++` runs `max 0 maxAttempts` times, so the fuel is
`(cfg.Retries + 1).toNat`; `_temp` mirrors the per-attempt temperature
computation, which the source uses only in the verbose log line (it is not an
argument of `provider.Complete`). -/

/-- The loop body of `GenerateWithValidation` (part_003 lines 81-161).
`attempt` is the 1-based Go loop counter, `fuel` the number of iterations
still allowed by `attempt <= maxAttempts`. -/
def genLoop (provider : Nat → String → Except String String) (parse : String → List String)
    (req : GenerateRequest) (cfg : ValidationConfig) (baseTemp : Rat)
    (buildPrompt : GenerateRequest → String) (extractKQL : String → String)
    (maxAttempts : Int) :
    Nat → Nat → String → List ValidationError → List String × Except String GenerateResult
  | 0, _, lastKQL, lastErrors =>
    ([], .ok { Query := lastKQL, Valid := false, Errors := lastErrors, Attempts := maxAttempts })
  | fuel + 1, attempt, lastKQL, lastErrors =>
    let prompt :=
      if attempt = 1 then buildPrompt req
      else buildRetryPrompt req lastKQL lastErrors (attempt : Int) cfg.Feedback buildPrompt
    let _temp := tempForAttempt baseTemp (attempt : Int) cfg.Temp
    match provider attempt prompt with
    | .error e =>
      ([prompt], .error ("generating query (attempt " ++ toString attempt ++ "): " ++ e))
    | .ok response =>
      let kql := extractKQL response
      let diags := parse kql
      if diags.isEmpty then
        ([prompt], .ok { Query := kql, Valid := true, Errors := [], Attempts := (attempt : Int) })
      else
        let rest := genLoop provider parse req cfg baseTemp buildPrompt extractKQL maxAttempts
          fuel (attempt + 1) kql (diags.map parseErrorToValidationError)
        (prompt :: rest.1, rest.2)

/-- `GenerateWithValidation` (part_003 lines 52-161), paired with the trace of
prompts handed to the provider. -/
def GenerateWithValidation (provider : Nat → String → Except String String)
    (parse : String → List String) (req : GenerateRequest) (cfg : ValidationConfig)
    (baseTemp : Rat) (buildPrompt : GenerateRequest → String)
    (extractKQL : String → String) : List String × Except String GenerateResult :=
  if cfg.Enabled = false then
    let prompt := buildPrompt req
    match provider 1 prompt with
    | .error e => ([prompt], .error ("generating query: " ++ e))
    | .ok response =>
      ([prompt], .ok { Query := extractKQL response, Valid := true, Errors := [], Attempts := 1 })
  else
    genLoop provider parse req cfg baseTemp buildPrompt extractKQL (cfg.Retries + 1)
      (cfg.Retries + 1).toNat 1 "" []

/-! ## The pure attempt history

With a transport-error-free provider `resp : Nat -> String -> String`, the
data each attempt works on is a pure function of the attempt index: the prompt
built for it, the candidate extracted from the response, and the diagnostics
of that candidate.  `attemptState k` is the `(lastKQL, lastErrors)` pair after
attempt `k` (attempt `0` being the initial zero values). -/

/-- Everything a controller run reads, with a never-failing provider. -/
structure RunEnv where
  resp : Nat → String → String
  parse : String → List String
  req : GenerateRequest
  cfg : ValidationConfig
  buildPrompt : GenerateRequest → String
  extractKQL : String → String

/-- The provider of a `RunEnv`: always `.ok`. -/
def RunEnv.provider (env : RunEnv) : Nat → String → Except String String :=
  fun a p => .ok (env.resp a p)

/-- `(lastKQL, lastErrors)` after attempt `k` of a run of `env`. -/
def attemptState (env : RunEnv) : Nat → String × List ValidationError
  | 0 => ("", [])
  | k + 1 =>
    let prev := attemptState env k
    let prompt :=
      if k + 1 = 1 then env.buildPrompt env.req
      else buildRetryPrompt env.req prev.1 prev.2 ((k : Int) + 1) env.cfg.Feedback env.buildPrompt
    let kql := env.extractKQL (env.resp (k + 1) prompt)
    (kql, (env.parse kql).map parseErrorToValidationError)

/-- The prompt built for attempt `k ≥ 1` of a run of `env`. -/
def promptAt (env : RunEnv) (k : Nat) : String :=
  if k = 1 then env.buildPrompt env.req
  else
    buildRetryPrompt env.req (attemptState env (k - 1)).1 (attemptState env (k - 1)).2
      (k : Int) env.cfg.Feedback env.buildPrompt

/-- The candidate extracted on attempt `k ≥ 1`. -/
def candAt (env : RunEnv) (k : Nat) : String := (attemptState env k).1

/-- The diagnostics (raw strings) of the candidate of attempt `k`. -/
def diagAt (env : RunEnv) (k : Nat) : List String := env.parse (candAt env k)

/-- The converted diagnostics of attempt `k`. -/
def verrsAt (env : RunEnv) (k : Nat) : List ValidationError := (attemptState env k).2

/-- A full run of `env`. -/
def runOf (env : RunEnv) (baseTemp : Rat) : List String × Except String GenerateResult :=
  GenerateWithValidation env.provider env.parse env.req env.cfg baseTemp env.buildPrompt
    env.extractKQL

/-- The loop of a `RunEnv` run, all fixed arguments applied. -/
def loopOf (env : RunEnv) (b : Rat) (mA : Int) (fuel attempt : Nat) (lk : String)
    (le : List ValidationError) : List String × Except String GenerateResult :=
  genLoop env.provider env.parse env.req env.cfg b env.buildPrompt env.extractKQL mA
    fuel attempt lk le

/-- A concrete configuration (the source's defaults with one retry) used by
the concrete run instances below. -/
def wCfg : ValidationConfig :=
  { Enabled := true, Strict := false, Retries := 1,
    Feedback := { Errors := true, Hints := true, Examples := true, Progressive := true },
    Temp := { Adjust := true, Increment := 1/10, Max := 4/5 } }

/-- A concrete run environment: attempt 1 yields a candidate with one
positioned diagnostic, attempt 2 a clean one. -/
def wEnv : RunEnv :=
  { resp := fun a _ => if a = 1 then "bad(" else "ok",
    parse := fun s => if s = "ok" then [] else ["generated.kql:1:5: expected ')'"],
    req := { Prompt := "count rows by State", Table := "", Schema := "" },
    cfg := wCfg,
    buildPrompt := fun r => "Generate KQL: " ++ r.Prompt,
    extractKQL := fun s => s }

theorem promptAt_eq (env : RunEnv) (k : Nat) :
    promptAt env (k + 1)
      = if k + 1 = 1 then env.buildPrompt env.req
        else
          buildRetryPrompt env.req (candAt env k) (verrsAt env k) ((k : Int) + 1)
            env.cfg.Feedback env.buildPrompt := by
  simp only [promptAt, candAt, verrsAt, Nat.add_sub_cancel]
  norm_cast

theorem candAt_succ (env : RunEnv) (k : Nat) :
    candAt env (k + 1) = env.extractKQL (env.resp (k + 1) (promptAt env (k + 1))) := by
  rw [promptAt_eq]
  simp only [candAt, verrsAt, attemptState]

theorem verrsAt_succ (env : RunEnv) (k : Nat) :
    verrsAt env (k + 1) = (diagAt env (k + 1)).map parseErrorToValidationError := by
  simp only [verrsAt, diagAt, candAt, attemptState]

/-- One unfolding of the loop at a positive attempt counter, with the
never-failing provider of `env`. -/
theorem loopOf_step (env : RunEnv) (b : Rat) (mA : Int) (fuel k : Nat) (lk : String)
    (le : List ValidationError) :
    loopOf env b mA (fuel + 1) (k + 1) lk le
      = (let prompt :=
           if k + 1 = 1 then env.buildPrompt env.req
           else buildRetryPrompt env.req lk le ((k : Int) + 1) env.cfg.Feedback env.buildPrompt
         let kql := env.extractKQL (env.resp (k + 1) prompt)
         let diags := env.parse kql
         if diags.isEmpty then
           ([prompt], .ok ⟨kql, true, [], ((k : Int) + 1)⟩)
         else
           let rest :=
             loopOf env b mA fuel (k + 1 + 1) kql (diags.map parseErrorToValidationError)
           (prompt :: rest.1, rest.2)) := by
  simp only [loopOf, genLoop, RunEnv.provider]
  norm_cast

/-- When every attempt in the window keeps producing diagnostics, the loop
exhausts its fuel and reports the LAST attempt's state. -/
theorem loopOf_exhaust (env : RunEnv) (b : Rat) (mA : Int) :
    ∀ fuel k, (∀ i, k < i → i ≤ k + fuel → diagAt env i ≠ []) →
    loopOf env b mA fuel (k + 1) (candAt env k) (verrsAt env k)
      = ((List.range' (k + 1) fuel).map (promptAt env),
         .ok ⟨candAt env (k + fuel), false, verrsAt env (k + fuel), mA⟩) := by
  intro fuel
  induction fuel with
  | zero =>
    intro k _
    simp [loopOf, genLoop, List.range']
  | succ n ih =>
    intro k h
    rw [loopOf_step]
    simp only [(promptAt_eq env k).symm]
    simp only [(candAt_succ env k).symm]
    have hd : env.parse (candAt env (k + 1)) = diagAt env (k + 1) := rfl
    simp only [hd]
    have hne : (diagAt env (k + 1)).isEmpty = false := by
      have h1 := h (k + 1) (by omega) (by omega)
      cases hdd : diagAt env (k + 1) with
      | nil => exact absurd hdd h1
      | cons a l => rfl
    rw [← verrsAt_succ]
    simp only [hne, Bool.false_eq_true, if_false]
    rw [ih (k + 1) (fun i h1 h2 => h i (by omega) (by omega))]
    have e1 : k + 1 + n = k + (n + 1) := by omega
    rw [e1, List.range'_succ, List.map_cons]

/-- When attempt `j` is the first in the window whose candidate validates
cleanly, the loop stops there with a success result. -/
theorem loopOf_success (env : RunEnv) (b : Rat) (mA : Int) :
    ∀ fuel k j, k < j → j ≤ k + fuel → diagAt env j = [] →
    (∀ i, k < i → i < j → diagAt env i ≠ []) →
    loopOf env b mA fuel (k + 1) (candAt env k) (verrsAt env k)
      = ((List.range' (k + 1) (j - k)).map (promptAt env),
         .ok ⟨candAt env j, true, [], (j : Int)⟩) := by
  intro fuel
  induction fuel with
  | zero =>
    intro k j h1 h2
    omega
  | succ n ih =>
    intro k j h1 h2 hj hmid
    rw [loopOf_step]
    simp only [(promptAt_eq env k).symm]
    simp only [(candAt_succ env k).symm]
    have hd : env.parse (candAt env (k + 1)) = diagAt env (k + 1) := rfl
    simp only [hd]
    by_cases hjk : j = k + 1
    · subst hjk
      simp only [hj, List.isEmpty_nil, if_true]
      have e1 : k + 1 - k = 1 := by omega
      rw [e1, List.range'_one, List.map_singleton]
      have e2 : ((k + 1 : Nat) : Int) = (k : Int) + 1 := by push_cast; ring
      rw [e2]
    · have hne : (diagAt env (k + 1)).isEmpty = false := by
        have h1 := hmid (k + 1) (by omega) (by omega)
        cases hdd : diagAt env (k + 1) with
        | nil => exact absurd hdd h1
        | cons a l => rfl
      rw [← verrsAt_succ]
      simp only [hne, Bool.false_eq_true, if_false]
      rw [ih (k + 1) j (by omega) (by omega) hj (fun i ha hb => hmid i (by omega) hb)]
      have e1 : j - k = (j - (k + 1)) + 1 := by omega
      rw [e1, List.range'_succ, List.map_cons]

/-- A transport error on attempt `j` aborts the loop: the earlier attempts
follow the history of `env`, attempt `j`'s provider call fails, and the loop
returns the annotated error with exactly `j - k` provider calls made. -/
theorem genLoop_error (env : RunEnv) (provider : Nat → String → Except String String)
    (b : Rat) (mA : Int) (e : String) :
    ∀ fuel k j, k < j → j ≤ k + fuel →
    (∀ i p, k < i → i < j → provider i p = .ok (env.resp i p)) →
    (∀ i, k < i → i < j → diagAt env i ≠ []) →
    provider j (promptAt env j) = .error e →
    genLoop provider env.parse env.req env.cfg b env.buildPrompt env.extractKQL mA
      fuel (k + 1) (candAt env k) (verrsAt env k)
      = ((List.range' (k + 1) (j - k)).map (promptAt env),
         .error ("generating query (attempt " ++ toString j ++ "): " ++ e)) := by
  intro fuel
  induction fuel with
  | zero =>
    intro k j h1 h2
    omega
  | succ n ih =>
    intro k j h1 h2 hag hmid herr
    simp only [genLoop]
    have ecast : ((k + 1 : Nat) : Int) = (k : Int) + 1 := by push_cast; ring
    rw [ecast]
    simp only [(promptAt_eq env k).symm]
    by_cases hjk : j = k + 1
    · subst hjk
      simp only [herr]
      have e1 : k + 1 - k = 1 := by omega
      rw [e1, List.range'_one, List.map_singleton]
    · simp only [hag (k + 1) (promptAt env (k + 1)) (by omega) (by omega)]
      simp only [(candAt_succ env k).symm]
      have hd : env.parse (candAt env (k + 1)) = diagAt env (k + 1) := rfl
      simp only [hd]
      have hne : (diagAt env (k + 1)).isEmpty = false := by
        have h1 := hmid (k + 1) (by omega) (by omega)
        cases hdd : diagAt env (k + 1) with
        | nil => exact absurd hdd h1
        | cons a l => rfl
      rw [← verrsAt_succ]
      simp only [hne, Bool.false_eq_true, if_false]
      rw [ih (k + 1) j (by omega) (by omega) (fun i p ha hb => hag i p (by omega) hb)
        (fun i ha hb => hmid i (by omega) hb) herr]
      have e1 : j - k = (j - (k + 1)) + 1 := by omega
      rw [e1, List.range'_succ, List.map_cons]

/-- With a provider that never fails, the loop always resolves to a
`GenerateResult` (validation failures alone are never fatal). -/
theorem genLoop_ok (provider : Nat → String → Except String String)
    (parse : String → List String) (req : GenerateRequest) (cfg : ValidationConfig)
    (b : Rat) (bp : GenerateRequest → String) (ex : String → String) (mA : Int)
    (hok : ∀ a p, ∃ r, provider a p = .ok r) :
    ∀ fuel a lk le,
      ∃ res, (genLoop provider parse req cfg b bp ex mA fuel a lk le).2 = .ok res := by
  intro fuel
  induction fuel with
  | zero => intro a lk le; exact ⟨_, rfl⟩
  | succ n ih =>
    intro a lk le
    simp only [genLoop]
    obtain ⟨r, hr⟩ :=
      hok a (if a = 1 then bp req else buildRetryPrompt req lk le (a : Int) cfg.Feedback bp)
    simp only [hr]
    by_cases hemp : (parse (ex r)).isEmpty
    · simp only [hemp, if_true]
      exact ⟨_, rfl⟩
    · simp only [Bool.not_eq_true] at hemp
      simp only [hemp, Bool.false_eq_true, if_false]
      exact ih (a + 1) (ex r) (((parse (ex r))).map parseErrorToValidationError)

/-- The result invariants of the loop, for any provider: derived results make
at most `mA` attempts, succeed with an empty error list, or fail with
`Attempts = mA`. -/
theorem genLoop_inv (provider : Nat → String → Except String String)
    (parse : String → List String) (req : GenerateRequest) (cfg : ValidationConfig)
    (b : Rat) (bp : GenerateRequest → String) (ex : String → String) (mA : Int) :
    ∀ (fuel a : Nat) (lk : String) (le : List ValidationError) (tr : List String)
      (res : GenerateResult),
    ((a : Int) + (fuel : Int) ≤ mA + 1) →
    genLoop provider parse req cfg b bp ex mA fuel a lk le = (tr, .ok res) →
    res.Attempts ≤ mA ∧ (res.Valid = true → res.Errors = []) ∧
      (res.Valid = false → res.Attempts = mA) := by
  intro fuel
  induction fuel with
  | zero =>
    intro a lk le tr res _ h
    simp only [genLoop, Prod.mk.injEq] at h
    obtain ⟨_, h2⟩ := h
    cases h2
    refine ⟨le_refl _, ?_, fun _ => rfl⟩
    intro hv
    simp at hv
  | succ n ih =>
    intro a lk le tr res hb h
    simp only [genLoop] at h
    cases hpr : provider a
        (if a = 1 then bp req else buildRetryPrompt req lk le (a : Int) cfg.Feedback bp) with
    | error e =>
      simp only [hpr, Prod.mk.injEq] at h
      exact absurd h.2 (by simp)
    | ok r =>
      simp only [hpr] at h
      by_cases hemp : (parse (ex r)).isEmpty
      · simp only [hemp, if_true, Prod.mk.injEq] at h
        obtain ⟨_, h2⟩ := h
        cases h2
        refine ⟨by push_cast at hb ⊢; omega, fun _ => rfl, fun hv => by cases hv⟩
      · simp only [Bool.not_eq_true] at hemp
        simp only [hemp, Bool.false_eq_true, if_false, Prod.mk.injEq] at h
        obtain ⟨_, h2⟩ := h
        refine ih (a + 1) (ex r) ((parse (ex r)).map parseErrorToValidationError)
          (genLoop provider parse req cfg b bp ex mA n (a + 1) (ex r)
            ((parse (ex r)).map parseErrorToValidationError)).1 res ?_ ?_
        · push_cast at hb ⊢
          omega
        · rw [← h2]

/-- The loop's observable behaviour does not depend on the temperature policy
or the base temperature: only `Feedback` (and the budget, passed separately)
enter the computation. -/
theorem genLoop_config (provider : Nat → String → Except String String)
    (parse : String → List String) (req : GenerateRequest) (cfg₁ cfg₂ : ValidationConfig)
    (b₁ b₂ : Rat) (bp : GenerateRequest → String) (ex : String → String) (mA : Int)
    (hF : cfg₁.Feedback = cfg₂.Feedback) :
    ∀ fuel a lk le,
      genLoop provider parse req cfg₁ b₁ bp ex mA fuel a lk le
        = genLoop provider parse req cfg₂ b₂ bp ex mA fuel a lk le := by
  intro fuel
  induction fuel with
  | zero => intro a lk le; rfl
  | succ n ih =>
    intro a lk le
    simp only [genLoop, hF]
    cases provider a
        (if a = 1 then bp req else buildRetryPrompt req lk le (a : Int) cfg₂.Feedback bp) with
    | error e => rfl
    | ok r =>
      by_cases hemp : (parse (ex r)).isEmpty
      · simp only [hemp, if_true]
      · simp only [Bool.not_eq_true] at hemp
        simp only [hemp, Bool.false_eq_true, if_false]
        rw [ih (a + 1) (ex r) ((parse (ex r)).map parseErrorToValidationError)]

theorem takeWhile_append_all {p : Char → Bool} :
    ∀ (l : List Char) (x : Char) (r : List Char), (∀ c ∈ l, p c = true) → p x = false →
      (l ++ x :: r).takeWhile p = l := by
  intro l
  induction l with
  | nil =>
    intro x r _ hx
    simp [List.takeWhile_cons, hx]
  | cons a t ih =>
    intro x r hall hx
    have ha : p a = true := hall a (List.mem_cons_self a t)
    simp only [List.cons_append, List.takeWhile_cons, ha, if_true]
    rw [ih x r (fun c hc => hall c (List.mem_cons_of_mem a hc)) hx]

theorem dropWhile_append_all {p : Char → Bool} :
    ∀ (l : List Char) (x : Char) (r : List Char), (∀ c ∈ l, p c = true) → p x = false →
      (l ++ x :: r).dropWhile p = x :: r := by
  intro l
  induction l with
  | nil =>
    intro x r _ hx
    simp [List.dropWhile_cons, hx]
  | cons a t ih =>
    intro x r hall hx
    have ha : p a = true := hall a (List.mem_cons_self a t)
    simp only [List.cons_append, List.dropWhile_cons, ha, if_true]
    exact ih x r (fun c hc => hall c (List.mem_cons_of_mem a hc)) hx

theorem dropWhile_head_false {p : Char → Bool} :
    ∀ (l : List Char) (x : Char) (xs : List Char), l.dropWhile p = x :: xs → p x = false := by
  intro l
  induction l with
  | nil => intro x xs h; cases h
  | cons a t ih =>
    intro x xs h
    by_cases hp : p a
    · rw [List.dropWhile_cons, if_pos hp] at h
      exact ih x xs h
    · rw [List.dropWhile_cons, if_neg hp] at h
      cases h
      exact eq_false_of_ne_true hp

/-- A diagnostic text that has the regex's shape parses into exactly its
components. -/
theorem parseShape_of_shape (src ld cd m : List Char)
    (hs : src ≠ []) (hsc : ∀ c ∈ src, c ≠ ':')
    (hld : ld ≠ []) (hldd : ∀ c ∈ ld, c.isDigit = true)
    (hcd : cd ≠ []) (hcdd : ∀ c ∈ cd, c.isDigit = true)
    (hm : m ≠ []) (hmn : '\n' ∉ m) :
    parseShape (src ++ ':' :: (ld ++ ':' :: (cd ++ ':' :: ' ' :: m))) = some (src, ld, cd, m) := by
  have pcolon : notColon ':' = false := by decide
  have hsrc : ∀ c ∈ src, notColon c = true := by
    intro c hc
    simp [notColon, hsc c hc]
  have h₁ := takeWhile_append_all src ':' (ld ++ ':' :: (cd ++ ':' :: ' ' :: m)) hsrc pcolon
  have h₂ := dropWhile_append_all src ':' (ld ++ ':' :: (cd ++ ':' :: ' ' :: m)) hsrc pcolon
  have pdc : Char.isDigit ':' = false := by decide
  have h₃ := takeWhile_append_all ld ':' (cd ++ ':' :: ' ' :: m) hldd pdc
  have h₄ := dropWhile_append_all ld ':' (cd ++ ':' :: ' ' :: m) hldd pdc
  have h₅ := takeWhile_append_all cd ':' (' ' :: m) hcdd pdc
  have h₆ := dropWhile_append_all cd ':' (' ' :: m) hcdd pdc
  have hcontains : m.contains '\n' = false := by simpa using hmn
  simp only [parseShape, h₁, h₂, h₃, h₄, h₅, h₆, List.head?_cons, List.tail_cons,
    eq_self_iff_true, if_true]
  rw [if_neg hs, if_neg hld, if_neg hcd, if_pos ⟨hm, by simpa using hmn⟩]

/-- Whatever `parseShape` accepts really decomposes as the regex describes. -/
theorem parseShape_sound (l src ld cd m : List Char)
    (h : parseShape l = some (src, ld, cd, m)) :
    l = src ++ ':' :: (ld ++ ':' :: (cd ++ ':' :: ' ' :: m)) ∧
      src ≠ [] ∧ (∀ c ∈ src, c ≠ ':') ∧ ld ≠ [] ∧ (∀ c ∈ ld, c.isDigit = true) ∧
      cd ≠ [] ∧ (∀ c ∈ cd, c.isDigit = true) ∧ m ≠ [] ∧ '\n' ∉ m := by
  simp only [parseShape] at h
  by_cases hsrc : l.takeWhile notColon = []
  · rw [if_pos hsrc] at h
    cases h
  · rw [if_neg hsrc] at h
    cases hd₀ : l.dropWhile notColon with
    | nil =>
      simp only [hd₀] at h
      cases h
    | cons c₀ r₁ =>
      simp only [hd₀] at h
      have hc₀ : c₀ = ':' := by
        have := dropWhile_head_false (p := notColon) l c₀ r₁ hd₀
        simpa [notColon] using this
      rw [if_pos hc₀] at h
      by_cases hld0 : r₁.takeWhile Char.isDigit = []
      · rw [if_pos hld0] at h
        cases h
      · rw [if_neg hld0] at h
        cases hd₂ : r₁.dropWhile Char.isDigit with
        | nil =>
          simp only [hd₂] at h
          cases h
        | cons c₂ r₃ =>
          simp only [hd₂] at h
          by_cases hc₂ : c₂ = ':'
          · rw [if_pos hc₂] at h
            by_cases hcd0 : r₃.takeWhile Char.isDigit = []
            · rw [if_pos hcd0] at h
              cases h
            · rw [if_neg hcd0] at h
              cases hd₄ : r₃.dropWhile Char.isDigit with
              | nil =>
                simp only [hd₄] at h
                cases h
              | cons c₄ r₅ =>
                simp only [hd₄] at h
                by_cases hc₄ : c₄ = ':'
                · rw [if_pos hc₄] at h
                  by_cases hh : r₅.head? = some ' '
                  · rw [if_pos hh] at h
                    by_cases hcond : r₅.tail ≠ [] ∧ ¬ (r₅.tail).contains '\n'
                    · rw [if_pos hcond] at h
                      simp only [Option.some.injEq, Prod.mk.injEq] at h
                      obtain ⟨h1, h2, h3, h4⟩ := h
                      subst h1; subst h2; subst h3; subst h4
                      obtain ⟨m₀, hr₅⟩ : ∃ t, r₅ = ' ' :: t := by
                        cases r₅ with
                        | nil => cases hh
                        | cons a t =>
                          simp only [List.head?_cons, Option.some.injEq] at hh
                          exact ⟨t, by rw [hh]⟩
                      refine ⟨?_, hsrc, ?_, hld0, ?_, hcd0, ?_, hcond.1, ?_⟩
                      · conv_lhs => rw [← List.takeWhile_append_dropWhile
                          (p := notColon) (l := l)]
                        rw [hd₀, hc₀]
                        congr 1
                        congr 1
                        conv_lhs => rw [← List.takeWhile_append_dropWhile
                          (p := Char.isDigit) (l := r₁)]
                        rw [hd₂, hc₂]
                        congr 1
                        congr 1
                        conv_lhs => rw [← List.takeWhile_append_dropWhile
                          (p := Char.isDigit) (l := r₃)]
                        rw [hd₄, hc₄, hr₅, List.tail_cons]
                      · intro c hc
                        have := List.mem_takeWhile_imp hc
                        simpa [notColon] using this
                      · intro c hc
                        exact List.mem_takeWhile_imp hc
                      · intro c hc
                        exact List.mem_takeWhile_imp hc
                      · intro hmem
                        exact hcond.2 (by simpa using hmem)
                    · rw [if_neg hcond] at h
                      cases h
                  · rw [if_neg hh] at h
                    cases h
                · rw [if_neg hc₄] at h
                  cases h
          · rw [if_neg hc₂] at h
            cases h

/-- If no line of the input looks like the start of a query, the capture
window never opens and the scan returns nothing. -/
theorem scanLines_nil_of_no_start :
    ∀ lines : List String,
      (∀ line ∈ lines, looksLikeKQLStart (goTrimSpace line) = false) →
      scanLines lines false = [] := by
  intro lines
  induction lines with
  | nil => intro _; rfl
  | cons l rest ih =>
    intro h
    have hl : looksLikeKQLStart (goTrimSpace l) = false := h l (List.mem_cons_self l rest)
    have hrest := fun line hline => h line (List.mem_cons_of_mem l hline)
    simp only [scanLines, hl, Bool.false_or, Bool.false_eq_true, if_false, ite_self]
    exact ih hrest

/-- When no fence is present and no line opens the capture window, the
extractor returns the trimmed, inline-backtick-stripped input. -/
theorem extractKQL_no_window (s : String)
    (hf : strContains (goTrimSpace s) "```" = false)
    (hl : ∀ line ∈ splitLines (stripInlineBackticks (goTrimSpace s)),
        looksLikeKQLStart (goTrimSpace line) = false) :
    extractKQL s = stripInlineBackticks (goTrimSpace s) := by
  simp only [extractKQL, hf, Bool.false_eq_true, if_false]
  rw [scanLines_nil_of_no_start _ hl]
  rfl

/-! ## The claims -/

/-- C1: the spec states that every attempt's provider call receives the
prompt AND the temperature computed by the scheduler for that attempt.  In the
source the `Provider.Complete` boundary takes only `(ctx, prompt)`; the
per-attempt temperature of lines 91-97 is used solely in the verbose log.
This theorem documents the defect: the entire observable run — every prompt
handed to the provider and the returned value — is invariant under arbitrary
changes of the base temperature and of the whole temperature-adjustment
policy, so the scheduled temperature can never reach the provider. -/
theorem C1_temperature_never_reaches_provider
    (provider : Nat → String → Except String String) (parse : String → List String)
    (req : GenerateRequest) (cfg : ValidationConfig) (t₁ t₂ : TempAdjustConfig)
    (b₁ b₂ : Rat) (bp : GenerateRequest → String) (ex : String → String) :
    GenerateWithValidation provider parse req { cfg with Temp := t₁ } b₁ bp ex
      = GenerateWithValidation provider parse req { cfg with Temp := t₂ } b₂ bp ex := by
  by_cases hEn : cfg.Enabled = false
  · simp only [GenerateWithValidation]
    rw [if_pos hEn, if_pos hEn]
  · simp only [GenerateWithValidation]
    rw [if_neg hEn, if_neg hEn]
    exact genLoop_config provider parse req { cfg with Temp := t₁ } { cfg with Temp := t₂ }
      b₁ b₂ bp ex (cfg.Retries + 1) rfl (cfg.Retries + 1).toNat 1 "" []

/-- C3: every `GenerateResult` the controller returns (rather than a transport
error) with `retries ≥ 0` satisfies the documented invariants:
`attempts ≤ retries + 1`, success implies an empty error list, and failure
implies the whole budget `retries + 1` was used. -/
theorem C3_result_invariants (provider : Nat → String → Except String String)
    (parse : String → List String) (req : GenerateRequest) (cfg : ValidationConfig)
    (b : Rat) (bp : GenerateRequest → String) (ex : String → String)
    (tr : List String) (res : GenerateResult)
    (hR : 0 ≤ cfg.Retries)
    (h : GenerateWithValidation provider parse req cfg b bp ex = (tr, .ok res)) :
    res.Attempts ≤ cfg.Retries + 1 ∧ (res.Valid = true → res.Errors = []) ∧
      (res.Valid = false → res.Attempts = cfg.Retries + 1) := by
  by_cases hEn : cfg.Enabled = false
  · simp only [GenerateWithValidation] at h
    rw [if_pos hEn] at h
    cases hp : provider 1 (bp req) with
    | error e =>
      simp only [hp, Prod.mk.injEq] at h
      exact absurd h.2 (by simp)
    | ok r =>
      simp only [hp, Prod.mk.injEq] at h
      obtain ⟨_, h2⟩ := h
      cases h2
      refine ⟨?_, fun _ => rfl, ?_⟩
      · show (1 : Int) ≤ cfg.Retries + 1
        omega
      · intro hv
        simp at hv
  · simp only [GenerateWithValidation] at h
    rw [if_neg hEn] at h
    exact genLoop_inv provider parse req cfg b bp ex (cfg.Retries + 1)
      (cfg.Retries + 1).toNat 1 "" [] tr res (by omega) h

/-- C3 witness: a concrete run (validation enabled, one clean first attempt)
satisfying all three invariants. -/
theorem C3_result_invariants_witness :
    ((⟨"q", true, [], 1⟩ : GenerateResult).Attempts ≤ (0 : Int) + 1)
      ∧ ((⟨"q", true, [], 1⟩ : GenerateResult).Valid = true →
          (⟨"q", true, [], 1⟩ : GenerateResult).Errors = [])
      ∧ ((⟨"q", true, [], 1⟩ : GenerateResult).Valid = false →
          (⟨"q", true, [], 1⟩ : GenerateResult).Attempts = (0 : Int) + 1) := by
  have h := C3_result_invariants (fun _ _ => .ok "q") (fun _ => []) ⟨"p", "", ""⟩
    { wCfg with Retries := 0 } 0 (fun _ => "P") (fun s => s) ["P"] ⟨"q", true, [], 1⟩
    (by decide) (by rfl)
  simp at h
  simp [h]

/-- C4: with validation disabled the controller makes exactly one provider
call with the unmodified initial prompt, consults the validator not at all
(the run is invariant under swapping the parser), and on provider success
returns `valid = true` unconditionally with `attempts = 1` and the extracted
candidate. -/
theorem C4_validation_disabled (provider : Nat → String → Except String String)
    (parse parse₂ : String → List String) (req : GenerateRequest) (cfg : ValidationConfig)
    (b : Rat) (bp : GenerateRequest → String) (ex : String → String)
    (hEn : cfg.Enabled = false) :
    (GenerateWithValidation provider parse req cfg b bp ex).1 = [bp req]
      ∧ GenerateWithValidation provider parse req cfg b bp ex
          = GenerateWithValidation provider parse₂ req cfg b bp ex
      ∧ ∀ r, provider 1 (bp req) = .ok r →
          (GenerateWithValidation provider parse req cfg b bp ex).2
            = .ok ⟨ex r, true, [], 1⟩ := by
  refine ⟨?_, ?_, ?_⟩
  · simp only [GenerateWithValidation]
    rw [if_pos hEn]
    cases hp : provider 1 (bp req) with
    | error e => simp [hp]
    | ok r => simp [hp]
  · simp only [GenerateWithValidation]
    rw [if_pos hEn, if_pos hEn]
  · intro r hr
    simp only [GenerateWithValidation]
    rw [if_pos hEn]
    simp [hr]

/-- C4 witness: the disabled-validation contract at a concrete input. -/
theorem C4_validation_disabled_witness :
    (GenerateWithValidation (fun _ _ => .ok "zz") (fun _ => ["x"]) ⟨"p", "", ""⟩
        { wCfg with Enabled := false } 0 (fun _ => "P") (fun s => s)).1 = ["P"]
      ∧ (GenerateWithValidation (fun _ _ => .ok "zz") (fun _ => ["x"]) ⟨"p", "", ""⟩
          { wCfg with Enabled := false } 0 (fun _ => "P") (fun s => s)).2
          = .ok ⟨"zz", true, [], 1⟩ := by
  have h := C4_validation_disabled (fun _ _ => .ok "zz") (fun _ => ["x"]) (fun _ => [])
    ⟨"p", "", ""⟩ { wCfg with Enabled := false } 0 (fun _ => "P") (fun s => s) rfl
  exact ⟨by simpa using h.1, h.2.2 "zz" rfl⟩

/-- C7: a diagnostic of the shape `<source>:<line>:<column>: <message>` (as
delimited by the anchored regex: non-empty colon-free source, non-empty digit
runs, non-empty newline-free message) converts to exactly those line, column
and message values; every other diagnostic falls back to line 1, column 1 with
the full text as message (the conversion never fails).  Consequently the retry
prompt built from the converted diagnostic `"in:1:5: expected ')'"` contains
the literal substring `"Line 1, Column 5: expected ')'"` whenever
`Feedback.Errors` is on. -/
theorem C7_diagnostic_conversion :
    (∀ src ld cd m : List Char, src ≠ [] → (∀ c ∈ src, c ≠ ':') → ld ≠ [] →
      (∀ c ∈ ld, c.isDigit = true) → cd ≠ [] → (∀ c ∈ cd, c.isDigit = true) → m ≠ [] →
      '\n' ∉ m →
      parseErrorToValidationError ⟨src ++ ':' :: (ld ++ ':' :: (cd ++ ':' :: ' ' :: m))⟩
        = ⟨goAtoi ld, goAtoi cd, ⟨m⟩⟩)
    ∧ (∀ msg : String, parseErrorToValidationError msg = ⟨1, 1, msg⟩ ∨
        ∃ src ld cd m : List Char,
          msg.data = src ++ ':' :: (ld ++ ':' :: (cd ++ ':' :: ' ' :: m)) ∧ src ≠ [] ∧
            ld ≠ [] ∧ (∀ c ∈ ld, c.isDigit = true) ∧ cd ≠ [] ∧
            (∀ c ∈ cd, c.isDigit = true) ∧ m ≠ [] ∧ '\n' ∉ m ∧
            parseErrorToValidationError msg = ⟨goAtoi ld, goAtoi cd, ⟨m⟩⟩)
    ∧ (∀ (fb : FeedbackConfig) (req : GenerateRequest) (failed : String) (att : Int)
        (bp : GenerateRequest → String), fb.Errors = true →
        ∃ pre post : String,
          buildRetryPrompt req failed [parseErrorToValidationError "in:1:5: expected ')'"]
              att fb bp
            = pre ++ "Line 1, Column 5: expected ')'" ++ post) := by
  refine ⟨?_, ?_, ?_⟩
  · intro src ld cd m hs hsc hld hldd hcd hcdd hm hmn
    simp only [parseErrorToValidationError,
      parseShape_of_shape src ld cd m hs hsc hld hldd hcd hcdd hm hmn]
  · intro msg
    cases hps : parseShape msg.data with
    | none =>
      left
      simp [parseErrorToValidationError, hps]
    | some q =>
      right
      obtain ⟨s, ld, cd, m⟩ := q
      have hsnd := parseShape_sound msg.data s ld cd m hps
      exact ⟨s, ld, cd, m, hsnd.1, hsnd.2.1, hsnd.2.2.2.1, hsnd.2.2.2.2.1,
        hsnd.2.2.2.2.2.1, hsnd.2.2.2.2.2.2.1, hsnd.2.2.2.2.2.2.2.1,
        hsnd.2.2.2.2.2.2.2.2, by simp [parseErrorToValidationError, hps]⟩
  · intro fb req failed att bp hfe
    have he : parseErrorToValidationError "in:1:5: expected ')'"
        = ⟨1, 5, "expected ')'"⟩ := by decide
    rw [he]
    have hE : retryErrorsSection [(⟨1, 5, "expected ')'"⟩ : ValidationError)] fb
        = "Errors:\n" ++ ("- " ++ "Line 1, Column 5: expected ')'" ++ "\n") ++ "\n" := by
      simp only [retryErrorsSection, hfe, if_true]
      decide
    simp only [buildRetryPrompt, hE]
    refine ⟨bp req ++ "\n\n---\n\n" ++ "Your previous attempt had syntax errors:\n\n```kql\n"
        ++ failed ++ "\n```\n\n" ++ "Errors:\n" ++ "- ",
      "\n" ++ "\n"
        ++ retryHintsSection [(⟨1, 5, "expected ')'"⟩ : ValidationError)] fb
        ++ retryExamplesSection [(⟨1, 5, "expected ')'"⟩ : ValidationError)] att fb
        ++ retryEmphasisSection att fb
        ++ "Please fix these errors and provide a corrected query.", ?_⟩
    simp only [String.append_assoc]

/-- C7 witness: the conversion applied to the concrete diagnostic
`"in:1:5: expected ')'"` and the resulting retry-prompt substring. -/
theorem C7_diagnostic_conversion_witness :
    parseErrorToValidationError "in:1:5: expected ')'"
        = ⟨goAtoi ['1'], goAtoi ['5'], ⟨"expected ')'".data⟩⟩
      ∧ ∃ pre post : String,
          buildRetryPrompt ⟨"p", "", ""⟩ "bad" [parseErrorToValidationError
              "in:1:5: expected ')'"] 2 ⟨true, false, false, false⟩ (fun _ => "P")
            = pre ++ "Line 1, Column 5: expected ')'" ++ post := by
  constructor
  · have h := C7_diagnostic_conversion.1 "in".data ['1'] ['5'] "expected ')'".data
      (by decide) (by decide) (by decide) (by decide) (by decide) (by decide) (by decide)
      (by decide)
    have hs : ("in:1:5: expected ')'" : String)
        = ⟨"in".data ++ ':' :: (['1'] ++ ':' :: (['5'] ++ ':' :: ' ' :: "expected ')'".data))⟩ :=
      by decide
    rw [hs]
    exact h
  · exact C7_diagnostic_conversion.2.2 ⟨true, false, false, false⟩ ⟨"p", "", ""⟩ "bad" 2
      (fun _ => "P") rfl

/-- C8: the two progressive additions for `attempt ≥ 3`.  The emphasis
sentence of `buildRetryPrompt` is appended unconditionally (even for an empty
diagnostics list), but the multi-line structural example of `getErrorExamples`
requires at least one diagnostic, because the progressive check sits inside
the loop over the diagnostics — see the counterexample for the empty list. -/
theorem C8_progressive_additions (errors : List ValidationError) (attempt : Int)
    (h3 : 3 ≤ attempt) :
    (errors ≠ [] → progressiveExample ∈ getErrorExamples errors attempt true)
    ∧ (∀ (req : GenerateRequest) (failed : String) (fb : FeedbackConfig)
        (bp : GenerateRequest → String), fb.Progressive = true →
        ∃ pre post : String, buildRetryPrompt req failed errors attempt fb bp
          = pre ++ progressiveEmphasis ++ post) := by
  constructor
  · intro hne
    obtain ⟨e₀, he₀⟩ := List.exists_mem_of_ne_nil errors hne
    have hfire : errors.any (fun e =>
        (fun _ => true && decide (3 ≤ attempt)) (goToLower e.Message)) = true := by
      simp only [List.any_eq_true]
      exact ⟨e₀, he₀, by simp [h3]⟩
    simp only [getErrorExamples]
    refine List.mem_append_right _ ?_
    rw [if_pos hfire]
    exact List.mem_singleton.mpr rfl
  · intro req failed fb bp hp
    have hEmph : retryEmphasisSection attempt fb = progressiveEmphasis := by
      rw [retryEmphasisSection, if_pos ⟨hp, h3⟩]
    simp only [buildRetryPrompt, hEmph]
    refine ⟨bp req ++ "\n\n---\n\n" ++ "Your previous attempt had syntax errors:\n\n```kql\n"
        ++ failed ++ "\n```\n\n"
        ++ retryErrorsSection errors fb
        ++ retryHintsSection errors fb
        ++ retryExamplesSection errors attempt fb,
      "Please fix these errors and provide a corrected query.", ?_⟩
    simp only [String.append_assoc]

/-- C8 witness: one diagnostic at attempt 3 puts the multi-line example in the
example list and the emphasis sentence in the retry prompt. -/
theorem C8_progressive_additions_witness :
    progressiveExample ∈ getErrorExamples [⟨1, 1, "zz"⟩] 3 true
      ∧ ∃ pre post : String,
          buildRetryPrompt ⟨"p", "", ""⟩ "bad" [⟨1, 1, "zz"⟩] 3 ⟨false, false, false, true⟩
              (fun _ => "P")
            = pre ++ progressiveEmphasis ++ post := by
  have h := C8_progressive_additions [⟨1, 1, "zz"⟩] 3 (by decide)
  exact ⟨h.1 (by decide), h.2 ⟨"p", "", ""⟩ "bad" ⟨false, false, false, true⟩
    (fun _ => "P") rfl⟩

/-- C8 counterexample: for the EMPTY diagnostics list at attempt 3 with
progressive feedback, `getErrorExamples` returns nothing at all — the
multi-line structural example is NOT added, contradicting the claim's "for
every list of diagnostics (including the empty list)". -/
theorem C8_empty_list_counterexample :
    getErrorExamples [] 3 true = [] ∧ progressiveExample ∉ getErrorExamples [] 3 true := by
  constructor
  · decide
  · intro hmem
    rw [show getErrorExamples [] 3 true = [] from by decide] at hmem
    cases hmem

/-- C9: response extraction is total and degrades gracefully: concretely on
the empty string and on an opening fence with no closing fence, and in
general, when no fence is present and no line opens the capture window, the
result is the trimmed input with inline backticks stripped. -/
theorem C9_extractor_total :
    (∀ s : String, strContains (goTrimSpace s) "```" = false →
      (∀ line ∈ splitLines (stripInlineBackticks (goTrimSpace s)),
        looksLikeKQLStart (goTrimSpace line) = false) →
      extractKQL s = stripInlineBackticks (goTrimSpace s))
    ∧ extractKQL "" = ""
    ∧ extractKQL "```kql\nT | foo" = "T | foo" := by
  refine ⟨extractKQL_no_window, by decide, by decide⟩

/-- C9 witness: a digits-only input opens no window, and extraction returns
the processed (here: unchanged) text. -/
theorem C9_extractor_total_witness :
    extractKQL "123" = stripInlineBackticks (goTrimSpace "123") :=
  C9_extractor_total.1 "123" (by decide) (by decide)

/-- C9 counterexample: for the input `` `9` `` no capture window ever opens,
yet the extractor returns `"9"`, not the trimmed raw text `` `9` `` — the
surrounding inline backticks are stripped first, contradicting the claim's
"returns the trimmed raw text". -/
theorem C9_trimmed_raw_counterexample :
    extractKQL "`9`" = "9" ∧ goTrimSpace "`9`" = "`9`"
      ∧ (∀ line ∈ splitLines (stripInlineBackticks (goTrimSpace "`9`")),
          looksLikeKQLStart (goTrimSpace line) = false)
      ∧ ("9" : String) ≠ "`9`" := by
  refine ⟨by decide, by decide, by decide, by decide⟩

/-- C10: with validation enabled and a negative retry budget the loop body
never runs: no provider call is made and the controller returns the zero-value
state — an empty query, `Valid = false`, no errors, and
`Attempts = Retries + 1 ≤ 0`. -/
theorem C10_negative_retries (provider : Nat → String → Except String String)
    (parse : String → List String) (req : GenerateRequest) (cfg : ValidationConfig)
    (b : Rat) (bp : GenerateRequest → String) (ex : String → String)
    (hEn : cfg.Enabled = true) (hR : cfg.Retries < 0) :
    GenerateWithValidation provider parse req cfg b bp ex
      = ([], .ok ⟨"", false, [], cfg.Retries + 1⟩) := by
  have hEn' : ¬(cfg.Enabled = false) := by simp [hEn]
  simp only [GenerateWithValidation]
  rw [if_neg hEn']
  rw [Int.toNat_of_nonpos (by omega : cfg.Retries + 1 ≤ 0)]
  rfl

/-- C2: with validation enabled and `retries ≥ 0`, (a) if attempt `j` is the
first whose candidate has no diagnostics, the run stops there: exactly `j`
provider calls, `valid = true`, `attempts = j`, that attempt's candidate and
no errors; (b) if every one of the `retries + 1` attempts produces at least
one diagnostic, the run uses the whole budget and returns `valid = false`,
`attempts = retries + 1`, the LAST attempt's candidate and exactly the last
attempt's converted diagnostics. -/
theorem C2_first_success_or_exhaustion (env : RunEnv) (b : Rat)
    (hEn : env.cfg.Enabled = true) (hR : 0 ≤ env.cfg.Retries) :
    (∀ j : Nat, 1 ≤ j → (j : Int) ≤ env.cfg.Retries + 1 → diagAt env j = [] →
       (∀ i, 1 ≤ i → i < j → diagAt env i ≠ []) →
       runOf env b = ((List.range' 1 j).map (promptAt env),
         .ok ⟨candAt env j, true, [], (j : Int)⟩))
    ∧ ((∀ i : Nat, 1 ≤ i → (i : Int) ≤ env.cfg.Retries + 1 → diagAt env i ≠ []) →
       runOf env b = ((List.range' 1 (env.cfg.Retries + 1).toNat).map (promptAt env),
         .ok ⟨candAt env ((env.cfg.Retries + 1).toNat), false,
              verrsAt env ((env.cfg.Retries + 1).toNat), env.cfg.Retries + 1⟩)) := by
  have hEn' : ¬(env.cfg.Enabled = false) := by simp [hEn]
  have hrun : runOf env b
      = loopOf env b (env.cfg.Retries + 1) (env.cfg.Retries + 1).toNat (0 + 1)
          (candAt env 0) (verrsAt env 0) := by
    simp only [runOf, GenerateWithValidation, loopOf]
    rw [if_neg hEn']
    rfl
  constructor
  · intro j h1 h2 hj hmid
    rw [hrun]
    have hs := loopOf_success env b (env.cfg.Retries + 1) (env.cfg.Retries + 1).toNat 0 j
      (by omega) (by omega) hj (fun i hi hij => hmid i (by omega) hij)
    simpa using hs
  · intro hall
    rw [hrun]
    have hs := loopOf_exhaust env b (env.cfg.Retries + 1) (env.cfg.Retries + 1).toNat 0
      (fun i hi hle => hall i (by omega) (by omega))
    simpa using hs

/-- C2 witness: in the concrete environment `wEnv` (one retry allowed), the
first attempt fails validation and the second succeeds, so the run makes two
provider calls and returns the second candidate with `attempts = 2`. -/
theorem C2_first_success_or_exhaustion_witness :
    runOf wEnv (1/5) = ((List.range' 1 2).map (promptAt wEnv),
      .ok ⟨candAt wEnv 2, true, [], (2 : Int)⟩) := by
  have h := (C2_first_success_or_exhaustion wEnv (1/5) rfl (by decide)).1 2
    (by decide) (by decide) (by decide) ?_
  · simpa using h
  · intro i h1 h2
    have : i = 1 := by omega
    subst this
    decide

/-- C5: the temperature schedule of lines 91-97.  The equations of the claim
hold exactly (attempt 1 and non-adjusting attempts use the base; adjusting
later attempts use `min (base + (attempt-1) * increment, max)`), and the
adjusted value is capped by `max` for every attempt after the first.
Monotonicity in the attempt number needs the side conditions the claim leaves
implicit: a non-negative increment (for attempts ≥ 2), and additionally
`base ≤ max` when the comparison starts at attempt 1 — see the counterexample
for the general statement. -/
theorem C5_temperature_schedule (b : Rat) (a : Int) (tc : TempAdjustConfig) :
    (a = 1 → tempForAttempt b a tc = b)
    ∧ (1 < a → tc.Adjust = false → tempForAttempt b a tc = b)
    ∧ (1 < a → tc.Adjust = true →
        tempForAttempt b a tc = min (b + ((a : Rat) - 1) * tc.Increment) tc.Max)
    ∧ (0 ≤ tc.Increment → ∀ a₂ : Int, 2 ≤ a → a ≤ a₂ →
        tempForAttempt b a tc ≤ tempForAttempt b a₂ tc)
    ∧ (0 ≤ tc.Increment → b ≤ tc.Max → ∀ a₂ : Int, 1 ≤ a → a ≤ a₂ →
        tempForAttempt b a tc ≤ tempForAttempt b a₂ tc)
    ∧ (1 < a → tc.Adjust = true → tempForAttempt b a tc ≤ tc.Max) := by
  have hmin : ∀ x : Int, 1 < x → tc.Adjust = true →
      tempForAttempt b x tc = min (b + ((x : Rat) - 1) * tc.Increment) tc.Max := by
    intro x hx hadj
    rw [tempForAttempt, if_pos ⟨hx, hadj⟩]
    push_cast
    rcases le_or_lt (b + ((x : Rat) - 1) * tc.Increment) tc.Max with hle | hlt
    · rw [if_neg (not_lt.mpr hle), min_eq_left hle]
    · rw [if_pos hlt, min_eq_right (le_of_lt hlt)]
  have hbase : ∀ x : Int, ¬(1 < x ∧ tc.Adjust = true) → tempForAttempt b x tc = b := by
    intro x hx
    rw [tempForAttempt, if_neg hx]
  have hmono2 : 0 ≤ tc.Increment → ∀ x y : Int, 2 ≤ x → x ≤ y →
      tempForAttempt b x tc ≤ tempForAttempt b y tc := by
    intro hinc x y hx hxy
    by_cases hadj : tc.Adjust = true
    · rw [hmin x (by omega) hadj, hmin y (by omega) hadj]
      refine min_le_min ?_ le_rfl
      have hc : ((x : Rat) - 1) ≤ ((y : Rat) - 1) := by
        have : (x : Rat) ≤ (y : Rat) := by exact_mod_cast hxy
        linarith
      nlinarith
    · rw [hbase x (by tauto), hbase y (by tauto)]
  refine ⟨?_, ?_, ?_, ?_, ?_, ?_⟩
  · intro h1
    exact hbase a (by omega)
  · intro h1 h2
    exact hbase a (by simp [h2])
  · intro h1 h2
    exact hmin a h1 h2
  · intro hinc a₂ h2 hle
    exact hmono2 hinc a a₂ h2 hle
  · intro hinc hbm a₂ h1 hle
    by_cases ha1 : a = 1
    · subst ha1
      rw [hbase 1 (by omega)]
      by_cases ha2 : a₂ = 1
      · subst ha2
        rw [hbase 1 (by omega)]
      · by_cases hadj : tc.Adjust = true
        · rw [hmin a₂ (by omega) hadj]
          refine le_min ?_ hbm
          have hnn : (0 : Rat) ≤ ((a₂ : Rat) - 1) * tc.Increment := by
            have : (1 : Rat) ≤ (a₂ : Rat) := by exact_mod_cast (by omega : (1 : Int) ≤ a₂)
            nlinarith
          linarith
        · rw [hbase a₂ (by tauto)]
    · exact hmono2 hinc a a₂ (by omega) hle
  · intro h1 h2
    rw [hmin a h1 h2]
    exact min_le_right _ _

/-- C5 witness: the schedule equations at concrete inputs (base 1/5,
increment 1/10, cap 4/5). -/
theorem C5_temperature_schedule_witness :
    tempForAttempt (1/5) 1 ⟨true, 1/10, 4/5⟩ = 1/5
      ∧ tempForAttempt (1/5) 3 ⟨true, 1/10, 4/5⟩
          = min ((1/5 : Rat) + ((3 : Rat) - 1) * (1/10)) (4/5) := by
  constructor
  · exact (C5_temperature_schedule (1/5) 1 ⟨true, 1/10, 4/5⟩).1 rfl
  · have h := (C5_temperature_schedule (1/5) 3 ⟨true, 1/10, 4/5⟩).2.2.1 (by norm_num) rfl
    simpa using h

/-- C5 counterexample: with `max < base` the claimed unconditional
monotonicity fails (base 1, increment 1, max 0: attempt 1 gives 1, attempt 2
gives 0), and attempt 1's value also exceeds the cap while adjusting. -/
theorem C5_monotonicity_counterexample :
    tempForAttempt 1 2 ⟨true, 1, 0⟩ < tempForAttempt 1 1 ⟨true, 1, 0⟩
      ∧ (⟨true, 1, 0⟩ : TempAdjustConfig).Max < tempForAttempt 1 1 ⟨true, 1, 0⟩ := by
  constructor
  · norm_num [tempForAttempt]
  · norm_num [tempForAttempt]

/-- C6: a transport error on attempt `k` is fatal: provided the earlier
attempts followed the error-free history (and kept failing validation), the
run returns a non-nil error annotated with attempt `k`, returns no result, and
makes exactly `k` provider calls — and, conversely, with a provider that never
fails, validation failures alone never produce a non-nil error. -/
theorem C6_transport_error_aborts (env : RunEnv)
    (provider : Nat → String → Except String String) (b : Rat) (e : String) (k : Nat)
    (hEn : env.cfg.Enabled = true) (hk : 1 ≤ k) (hk2 : (k : Int) ≤ env.cfg.Retries + 1)
    (hAg : ∀ i p, 1 ≤ i → i < k → provider i p = .ok (env.resp i p))
    (hDg : ∀ i, 1 ≤ i → i < k → diagAt env i ≠ [])
    (hErr : provider k (promptAt env k) = .error e) :
    GenerateWithValidation provider env.parse env.req env.cfg b env.buildPrompt env.extractKQL
        = ((List.range' 1 k).map (promptAt env),
           .error ("generating query (attempt " ++ toString k ++ "): " ++ e))
      ∧ ∀ provider₂ : Nat → String → Except String String,
          (∀ a p, ∃ r, provider₂ a p = .ok r) →
          ∃ res, (GenerateWithValidation provider₂ env.parse env.req env.cfg b
              env.buildPrompt env.extractKQL).2 = .ok res := by
  have hEn' : ¬(env.cfg.Enabled = false) := by simp [hEn]
  constructor
  · simp only [GenerateWithValidation]
    rw [if_neg hEn']
    have h := genLoop_error env provider b (env.cfg.Retries + 1) e
      (env.cfg.Retries + 1).toNat 0 k (by omega) (by omega)
      (fun i p hi hik => hAg i p (by omega) hik)
      (fun i hi hik => hDg i (by omega) hik) hErr
    simpa using h
  · intro provider₂ hok
    simp only [GenerateWithValidation]
    rw [if_neg hEn']
    exact genLoop_ok provider₂ env.parse env.req env.cfg b env.buildPrompt env.extractKQL
      (env.cfg.Retries + 1) hok (env.cfg.Retries + 1).toNat 1 "" []

/-- C6 witness: a provider failing on the very first attempt aborts the run
with one provider call and the annotated error, while a never-failing provider
always yields a result. -/
theorem C6_transport_error_aborts_witness :
    GenerateWithValidation (fun _ _ => .error "boom") wEnv.parse wEnv.req wEnv.cfg (1/5)
        wEnv.buildPrompt wEnv.extractKQL
      = ((List.range' 1 1).map (promptAt wEnv),
         .error ("generating query (attempt " ++ toString (1 : Nat) ++ "): " ++ "boom"))
      ∧ ∃ res, (GenerateWithValidation (fun _ _ => .ok "ok") wEnv.parse wEnv.req wEnv.cfg (1/5)
          wEnv.buildPrompt wEnv.extractKQL).2 = .ok res := by
  have h := C6_transport_error_aborts wEnv (fun _ _ => .error "boom") (1/5) "boom" 1
    rfl (by omega) (by decide) (fun i p h1 h2 => by omega) (fun i h1 h2 => by omega) rfl
  exact ⟨h.1, h.2 (fun _ _ => .ok "ok") (fun a p => ⟨"ok", rfl⟩)⟩

/-- C10 witness: `Retries = -1` makes zero provider calls and returns the
zero-value failure result. -/
theorem C10_negative_retries_witness :
    GenerateWithValidation (fun _ _ => .ok "zz") (fun _ => ["x"]) ⟨"p", "", ""⟩
        { wCfg with Retries := -1 } 0 (fun _ => "P") (fun s => s)
      = ([], .ok ⟨"", false, [], (-1 : Int) + 1⟩) :=
  C10_negative_retries (fun _ _ => .ok "zz") (fun _ => ["x"]) ⟨"p", "", ""⟩
    { wCfg with Retries := -1 } 0 (fun _ => "P") (fun s => s) rfl (by decide)

/-! ## Concrete sanity checks of the embedding -/

example : goTrimSpace "  a b \n" = "a b" := by decide
example : strContains "expected ')'" "')'" = true := by decide
example : goToLower "AbC" = "abc" := by decide

example : parseErrorToValidationError "in:1:5: expected ')'" = ⟨1, 5, "expected ')'"⟩ := by decide
example : parseErrorToValidationError "oops" = ⟨1, 1, "oops"⟩ := by decide
example : parseErrorToValidationError "generated.kql:12:34: bad token" = ⟨12, 34, "bad token"⟩ := by
  decide

example : getErrorHints [⟨1, 5, "expected ')'"⟩] = ["Ensure all parentheses are balanced"] := by
  decide
example : getErrorExamples [] 3 true = [] := by decide
example :
    getErrorExamples [⟨1, 1, "zzz"⟩] 3 true = [progressiveExample] := by decide

example : extractKQL "" = "" := by decide
example : extractKQL "```kql\nT | count() \n```" = "T | count()" := by decide
example : extractKQL "`9`" = "9" := by decide
example :
    extractKQL "Sure: \n\nT | where X > 1\nThis query filters."
      = "Sure: \n\nT | where X > 1" := by
  decide
example : extractKQL "12:00\nnote: nothing" = "12:00\nnote: nothing" := by decide
example : extractKQL "```kql\nT | foo" = "T | foo" := by decide

end KQL
